import Mathlib

/-!
Verification of the smartmake build-system dispatcher (src/main.rs).

The source is embedded shallowly:
* `BuildProgram`, `BuildProgram.from_filename`, the `build_*_command`
  constructors, `BuildProgram.run`, `get_build_system`, `find_build_dir`
  and `main` are translated directly from src/main.rs.
* Filesystem access (`read_dir`, `fs::exists`) is made explicit through an
  `FS` record passed to the functions that read it; the current working
  directory becomes an explicit parameter of `find_build_dir` and `main`.
* Paths (`PathBuf`) are modelled as their component lists, innermost
  component first, so `PathBuf::push` is `List.cons` and `PathBuf::pop`
  removes the head (returning `false` exactly when the path is already the
  root `[]`, as `pop` does on `/`).
* `Result<T>` is `Except Unit T`.  A `.unwrap()` on an `Err` in the Rust
  code panics and terminates the run; the model propagates the `.error`,
  which is the same observable outcome (the run terminates with a
  filesystem failure and produces no result).
* `println!` becomes an explicit `Effect.print` / `Effect.printCommand`
  output; `Effect.execute` exists in the effect language so that claims
  about executing a command can be stated, but the embedded code never
  emits it (the current snapshot only prints the command).
-/

namespace SmartMake

/-- The build-system identity enumeration `enum BuildProgram`. -/
inductive BuildProgram
  | Make
  | Ninja
  | Cargo
  | CMake
deriving DecidableEq, Repr

/-- `BuildProgram::from_filename`: the exact, case-sensitive marker-file
mapping. -/
def BuildProgram.from_filename (s : String) : Option BuildProgram :=
  match s with
  | "makefile" | "Makefile" | "GNUmakefile" => some .Make
  | "build.ninja" => some .Ninja
  | "Cargo.toml" => some .Cargo
  | "CMakeLists.txt" => some .CMake
  | _ => none

/-- A constructed subprocess invocation: the program name plus the ordered
argument list, exactly the observable content of the `std::process::Command`
values built by the program. -/
structure Invocation where
  program : String
  args : List String
deriving DecidableEq, Repr

/-- `BuildProgram::build_make_command` (threads is `usize`, hence `Nat`;
the directory is the path argument rendered as an OS string). -/
def build_make_command (threads : Nat) (directory : String) : Invocation :=
  { program := "make", args := ["-j", toString threads, "-C", directory] }

/-- `BuildProgram::build_ninja_command`. -/
def build_ninja_command (threads : Nat) (directory : String) : Invocation :=
  { program := "ninja", args := ["-j", toString threads, "-C", directory] }

/-- `BuildProgram::build_cmake_command`: first `-C <directory>`, then
`-j <threads>`. -/
def build_cmake_command (threads : Nat) (directory : String) : Invocation :=
  { program := "cmake", args := ["-C", directory, "-j", toString threads] }

/-- Observable side effects of the program.  The embedded snapshot only
prints; `execute` is part of the effect vocabulary so that execution claims
can be stated about it. -/
inductive Effect
  | print (s : String)
  | printCommand (c : Invocation)
  | execute (c : Invocation)
deriving DecidableEq, Repr

/-- Number of `Effect.execute` effects in an effect trace. -/
def countExec (effects : List Effect) : Nat :=
  effects.countP fun e =>
    match e with
    | .execute _ => true
    | _ => false

/-- `BuildProgram::run`: build the per-identity command, then
`println!("Command: {:?}", command)` — the command is printed, not
executed.  The Cargo branch is `Command::new("cargo build")`: the whole
string is the program name and the argument list is empty. -/
def BuildProgram.run (self : BuildProgram) (threads : Nat) (directory : String) :
    List Effect :=
  let command : Invocation :=
    match self with
    | .Make => build_make_command threads directory
    | .Ninja => build_ninja_command threads directory
    | .CMake => build_cmake_command threads directory
    | .Cargo => { program := "cargo build", args := [] }
  [Effect.printCommand command]

/-- One item of the `read_dir` iterator, which yields `io::Result<DirEntry>`:
`err` is a failed entry read, `entry (some name)` a successful entry whose
`file_name().to_str()` yields a UTF-8 name, `entry none` one whose name is
not valid UTF-8 (`to_str` returns `None`). -/
inductive EntryResult
  | err
  | entry (name : Option String)
deriving DecidableEq, Repr

/-- A filesystem path as its component list, innermost first; `[]` is the
filesystem root. -/
abbrev Path := List String

/-- The filesystem as seen by the program: `read_dir` returns the directory
listing or `none` when the listing itself fails, and `pathExists` is
`fs::exists`. -/
structure FS where
  read_dir : Path → Option (List EntryResult)
  pathExists : Path → Bool

/-- The entry loop of `get_build_system`: a failed entry read propagates the
error (`entry?`), a non-UTF-8 name is skipped (`if let Some(name) = ...`),
and the first recognized marker is returned. -/
def scanEntries : List EntryResult → Except Unit (Option BuildProgram)
  | [] => .ok none
  | .err :: _ => .error ()
  | .entry none :: rest => scanEntries rest
  | .entry (some name) :: rest =>
    match BuildProgram.from_filename name with
    | some bp => .ok (some bp)
    | none => scanEntries rest

/-- `get_build_system`: `read_dir(path)?` then the entry loop. -/
def get_build_system (fs : FS) (path : Path) : Except Unit (Option BuildProgram) :=
  match fs.read_dir path with
  | none => .error ()
  | some entries => scanEntries entries

/-- The `while cwd.pop()` loop of `find_build_dir`: at the root the `pop`
fails and the loop ends with no result; otherwise detection runs on the
parent and the walk continues from it. -/
def ancestor_search (fs : FS) : Path → Except Unit (Option (BuildProgram × Path))
  | [] => .ok none
  | _ :: parent =>
    match get_build_system fs parent with
    | .error e => .error e
    | .ok (some program) => .ok (some (program, parent))
    | .ok none => ancestor_search fs parent

/-- `find_build_dir`: detect at the cwd; otherwise at `cwd/build` when that
path exists; otherwise walk the ancestors.  Each `.unwrap()` on a
filesystem error panics, modelled by propagating `.error`. -/
def find_build_dir (fs : FS) (cwd : Path) : Except Unit (Option (BuildProgram × Path)) :=
  match get_build_system fs cwd with
  | .error e => .error e
  | .ok (some program) => .ok (some (program, cwd))
  | .ok none =>
    let build_dir : Path := "build" :: cwd
    if fs.pathExists build_dir then
      match get_build_system fs build_dir with
      | .error e => .error e
      | .ok (some program) => .ok (some (program, build_dir))
      | .ok none => ancestor_search fs cwd
    else
      ancestor_search fs cwd

/-- Render a path the way `as_os_str` shows an absolute `PathBuf`. -/
def render (p : Path) : String :=
  "/" ++ String.intercalate "/" p.reverse

/-- `main`: resolve the thread count (`args.threads` defaulted to the host
parallelism), search for a build directory, and either run (print) the
command or report that no build system was found.  The returned `Nat` is
the process exit status; the Rust `main` returns `()`, i.e. status 0, on
every non-panicking path. -/
def main (fs : FS) (cwd : Path) (threadsArg : Option Nat) (host : Nat) :
    Except Unit (List Effect × Nat) :=
  let threads := threadsArg.getD host
  match find_build_dir fs cwd with
  | .error e => .error e
  | .ok (some (build_program, path)) => .ok (build_program.run threads (render path), 0)
  | .ok none => .ok ([Effect.print "No build system found"], 0)

/-- The proper ancestors of a path, nearest parent first, down to the
root. -/
def ancestorsOf : Path → List Path
  | [] => []
  | _ :: parent => parent :: ancestorsOf parent

/-- The search order the specification describes: the cwd itself, then the
`build` subdirectory of the cwd when it exists, then each ancestor toward
the root. -/
def searchOrderSpec (fs : FS) (cwd : Path) : List Path :=
  cwd :: ((if fs.pathExists ("build" :: cwd) then ["build" :: cwd] else []) ++ ancestorsOf cwd)

/-- Reference search from the specification: try detection on each
candidate in order, returning the first success, propagating a listing
failure, and returning no result when the candidates are exhausted. -/
def detectFirstSpec (fs : FS) : List Path → Except Unit (Option (BuildProgram × Path))
  | [] => .ok none
  | p :: rest =>
    match get_build_system fs p with
    | .error e => .error e
    | .ok (some bp) => .ok (some (bp, p))
    | .ok none => detectFirstSpec fs rest

lemma ancestor_search_eq_detectFirstSpec (fs : FS) (p : Path) :
    ancestor_search fs p = detectFirstSpec fs (ancestorsOf p) := by
  induction p with
  | nil => rfl
  | cons hd tl ih =>
    simp only [ancestor_search, ancestorsOf, detectFirstSpec]
    cases h : get_build_system fs tl with
    | error e => rfl
    | ok r => cases r <;> simp [ih]

lemma find_build_dir_eq_detectFirstSpec (fs : FS) (cwd : Path) :
    find_build_dir fs cwd = detectFirstSpec fs (searchOrderSpec fs cwd) := by
  simp only [find_build_dir, searchOrderSpec, detectFirstSpec]
  cases h : get_build_system fs cwd with
  | error e => rfl
  | ok r =>
    cases r with
    | some bp => rfl
    | none =>
      by_cases hex : fs.pathExists ("build" :: cwd)
      · simp only [hex, if_true, List.singleton_append, detectFirstSpec]
        cases hb : get_build_system fs ("build" :: cwd) with
        | error e => rfl
        | ok rb => cases rb <;> simp [ancestor_search_eq_detectFirstSpec]
      · simp only [hex, if_false, List.nil_append]
        exact ancestor_search_eq_detectFirstSpec fs cwd

lemma detectFirstSpec_eq_ok_none (fs : FS) (l : List Path)
    (h : detectFirstSpec fs l = .ok none) :
    ∀ p ∈ l, get_build_system fs p = .ok none := by
  induction l with
  | nil => intro p hp; cases hp
  | cons hd tl ih =>
    intro p hp
    simp only [detectFirstSpec] at h
    cases hg : get_build_system fs hd with
    | error e => rw [hg] at h; cases h
    | ok r =>
      cases r with
      | some bp => rw [hg] at h; cases h
      | none =>
        rw [hg] at h
        rcases List.mem_cons.mp hp with rfl | hmem
        · exact hg
        · exact ih h p hmem

/-- C1: `find_build_dir` tries detection in exactly the specified order —
the cwd, then the existing `build` subdirectory of the cwd when the cwd has
no marker, then each ancestor toward the root — returning the first
success, and it returns no result only when every candidate down to the
root was searched without a match. -/
theorem find_build_dir_search_order (fs : FS) (cwd : Path) :
    find_build_dir fs cwd = detectFirstSpec fs (searchOrderSpec fs cwd) ∧
    (find_build_dir fs cwd = .ok none →
      ∀ p ∈ searchOrderSpec fs cwd, get_build_system fs p = .ok none) := by
  constructor
  · exact find_build_dir_eq_detectFirstSpec fs cwd
  · intro h
    rw [find_build_dir_eq_detectFirstSpec] at h
    exact detectFirstSpec_eq_ok_none fs _ h

/-- Witness filesystem for C1: every directory is readable and empty. -/
def fsEmpty : FS where
  read_dir _ := some []
  pathExists _ := false

/-- Witness for C1 at a concrete input: on the all-empty filesystem the
search from `/a` agrees with the reference order and, having returned no
result, indeed left no marker undetected at the root. -/
theorem find_build_dir_search_order_witness :
    find_build_dir fsEmpty ["a"] = detectFirstSpec fsEmpty (searchOrderSpec fsEmpty ["a"]) ∧
    get_build_system fsEmpty [] = .ok none :=
  ⟨(find_build_dir_search_order fsEmpty ["a"]).1,
    (find_build_dir_search_order fsEmpty ["a"]).2 rfl [] (by simp [searchOrderSpec, fsEmpty, ancestorsOf])⟩

/-- C2: the filename-to-identity mapping is exact and case-sensitive —
`some` is returned precisely for the six recognized marker names with the
listed identities — and detection on a directory whose listing is exactly
one such marker file returns the corresponding identity. -/
theorem from_filename_exact :
    (∀ s bp, BuildProgram.from_filename s = some bp ↔
      (((s = "makefile" ∨ s = "Makefile" ∨ s = "GNUmakefile") ∧ bp = .Make) ∨
        (s = "build.ninja" ∧ bp = .Ninja) ∨
        (s = "Cargo.toml" ∧ bp = .Cargo) ∨
        (s = "CMakeLists.txt" ∧ bp = .CMake))) ∧
    (∀ fs p s bp, BuildProgram.from_filename s = some bp →
      fs.read_dir p = some [EntryResult.entry (some s)] →
      get_build_system fs p = .ok (some bp)) := by
  constructor
  · intro s bp
    constructor
    · intro h
      unfold BuildProgram.from_filename at h
      split at h <;> simp_all
    · intro h
      rcases h with ⟨hs | hs | hs, rfl⟩ | ⟨hs, rfl⟩ | ⟨hs, rfl⟩ | ⟨hs, rfl⟩ <;>
        subst hs <;> rfl
  · intro fs p s bp hmap hdir
    simp [get_build_system, hdir, scanEntries, hmap]

/-- Witness for C2 at a concrete input: a singleton listing holding
`Cargo.toml` is detected as Cargo. -/
theorem from_filename_exact_witness :
    get_build_system ⟨fun _ => some [EntryResult.entry (some "Cargo.toml")], fun _ => false⟩
      [] = .ok (some .Cargo) :=
  from_filename_exact.2 ⟨fun _ => some [EntryResult.entry (some "Cargo.toml")], fun _ => false⟩
    [] "Cargo.toml" .Cargo rfl rfl

lemma scanEntries_map_names (names : List String) :
    scanEntries (names.map fun n => EntryResult.entry (some n)) =
      .ok (names.findSome? BuildProgram.from_filename) := by
  induction names with
  | nil => rfl
  | cons hd tl ih =>
    simp only [List.map_cons, scanEntries, List.findSome?_cons]
    cases BuildProgram.from_filename hd <;> simp [ih]

/-- C5: on a readable directory whose entries have the given names, in
listing order, detection returns the first name recognized by the marker
mapping, and no result exactly when the listing is exhausted with no
recognized marker. -/
theorem get_build_system_first_match (fs : FS) (p : Path) (names : List String)
    (h : fs.read_dir p = some (names.map fun n => EntryResult.entry (some n))) :
    get_build_system fs p = .ok (names.findSome? BuildProgram.from_filename) := by
  simp only [get_build_system, h]
  exact scanEntries_map_names names

/-- Witness for C5 at a concrete input: in a listing `[README, Makefile,
build.ninja]` the first recognized marker wins, so Make is detected. -/
theorem get_build_system_first_match_witness :
    get_build_system
      ⟨fun _ => some [EntryResult.entry (some "README"), EntryResult.entry (some "Makefile"),
        EntryResult.entry (some "build.ninja")], fun _ => false⟩ [] = .ok (some .Make) :=
  get_build_system_first_match
    ⟨fun _ => some [EntryResult.entry (some "README"), EntryResult.entry (some "Makefile"),
      EntryResult.entry (some "build.ninja")], fun _ => false⟩
    [] ["README", "Makefile", "build.ninja"] rfl

lemma detectFirstSpec_ok_some (fs : FS) (l : List Path) (bp : BuildProgram) (d : Path)
    (h : detectFirstSpec fs l = .ok (some (bp, d))) :
    get_build_system fs d = .ok (some bp) := by
  induction l with
  | nil => cases h
  | cons hd tl ih =>
    simp only [detectFirstSpec] at h
    cases hg : get_build_system fs hd with
    | error e => rw [hg] at h; cases h
    | ok r =>
      cases r with
      | some bp0 =>
        rw [hg] at h
        obtain ⟨rfl, rfl⟩ : bp0 = bp ∧ hd = d := by
          cases h; exact ⟨rfl, rfl⟩
        exact hg
      | none => rw [hg] at h; exact ih h

/-- C9: whenever `find_build_dir` returns a pair, detection on the
returned directory yields exactly the returned identity. -/
theorem find_build_dir_consistent (fs : FS) (cwd : Path) (bp : BuildProgram) (d : Path)
    (h : find_build_dir fs cwd = .ok (some (bp, d))) :
    get_build_system fs d = .ok (some bp) := by
  rw [find_build_dir_eq_detectFirstSpec] at h
  exact detectFirstSpec_ok_some fs _ bp d h

/-- Witness filesystem for C9: a `Makefile` sits in `/a`, the cwd. -/
def fsMake : FS where
  read_dir p := if p = ["a"] then some [EntryResult.entry (some "Makefile")] else some []
  pathExists _ := false

/-- Witness for C9 at a concrete input: the search from `/a` returns
`(Make, /a)` and detection on `/a` is indeed Make. -/
theorem find_build_dir_consistent_witness :
    get_build_system fsMake ["a"] = .ok (some .Make) :=
  find_build_dir_consistent fsMake ["a"] .Make ["a"] (by rfl)

lemma scanEntries_all_non_utf8 (entries : List EntryResult)
    (hall : ∀ e ∈ entries, e = EntryResult.entry none) :
    scanEntries entries = .ok none := by
  induction entries with
  | nil => rfl
  | cons hd tl ih =>
    have hhd := hall hd (List.mem_cons_self hd tl)
    subst hhd
    exact ih fun e he => hall e (List.mem_cons_of_mem _ he)

/-- C10: entries whose filenames are not valid UTF-8 are silently skipped —
a readable directory all of whose entries have non-UTF-8 names yields the
successful no-identity result, with no error. -/
theorem non_utf8_skipped (fs : FS) (p : Path) (entries : List EntryResult)
    (h : fs.read_dir p = some entries)
    (hall : ∀ e ∈ entries, e = EntryResult.entry none) :
    get_build_system fs p = .ok none := by
  simp only [get_build_system, h]
  exact scanEntries_all_non_utf8 entries hall

/-- Witness for C10 at a concrete input: a directory with two non-UTF-8
entries detects nothing and raises no error. -/
theorem non_utf8_skipped_witness :
    get_build_system ⟨fun _ => some [EntryResult.entry none, EntryResult.entry none],
      fun _ => false⟩ [] = .ok none :=
  non_utf8_skipped ⟨fun _ => some [EntryResult.entry none, EntryResult.entry none],
    fun _ => false⟩ [] [EntryResult.entry none, EntryResult.entry none] rfl (by decide)

/-- C3: evaluation of the code at the Cargo identity: the Cargo branch of
`run` builds `Command::new("cargo build")`, i.e. an invocation whose
program name is the single string `cargo build` with an empty argument
list — not program `cargo` with arguments `[build]` — and the thread and
directory parameters (here 4 and `/proj`) do not appear. -/
theorem cargo_run_eval :
    BuildProgram.run .Cargo 4 "/proj" =
      [Effect.printCommand { program := "cargo build", args := [] }] := rfl

/-- Filesystem for the C4 counterexample: `/p` is the cwd and holds
exactly `CMakeLists.txt`. -/
def fsCMake : FS where
  read_dir p := if p = ["p"] then some [EntryResult.entry (some "CMakeLists.txt")] else some []
  pathExists _ := false

/-- C4 counterexample: with the thread flag absent (threads argument
`none`, host parallelism 8) the CMake invocation still carries
`-j` — `-j 8` — and its argument list is `[-C, /p, -j, 8]`, not
`[-C, .]`. -/
theorem cmake_dash_j_counterexample :
    main fsCMake ["p"] none 8 =
      .ok ([Effect.printCommand { program := "cmake", args := ["-C", "/p", "-j", "8"] }], 0) ∧
    "-j" ∈ ["-C", "/p", "-j", "8"] ∧
    ["-C", "/p", "-j", "8"] ≠ ["-C", "."] := by
  refine ⟨rfl, ?_, ?_⟩ <;> decide

/-- C4 amended: the command builders always receive a concrete thread
count — the CLI value when given, otherwise the host parallelism — so
`-j <threads>` always appears in the Make, Ninja and CMake invocations;
with the thread flag absent the CMake arguments are
`[-C, <directory>, -j, <host parallelism>]`, never `[-C, .]`. -/
theorem dash_j_always_present (threads host : Nat) (directory : String) :
    "-j" ∈ (build_make_command threads directory).args ∧
    "-j" ∈ (build_ninja_command threads directory).args ∧
    "-j" ∈ (build_cmake_command threads directory).args ∧
    (build_cmake_command ((none : Option Nat).getD host) directory).args =
      ["-C", directory, "-j", toString host] := by
  refine ⟨?_, ?_, ?_, rfl⟩ <;>
    simp [build_make_command, build_ninja_command, build_cmake_command]

/-- Filesystem for C6: a `Makefile` sits in `/a`, the cwd. -/
def fsMakeCwd : FS where
  read_dir p := if p = ["a"] then some [EntryResult.entry (some "Makefile")] else some []
  pathExists _ := false

/-- C6 counterexample: with a build system found (Make in `/a`, threads 4)
the run's whole effect trace is one print of the constructed command — it
contains no execution — and the exit status is the constant 0, not the
build tool's exit code. -/
theorem invocation_not_executed_counterexample :
    main fsMakeCwd ["a"] (some 4) 8 =
      .ok ([Effect.printCommand { program := "make", args := ["-j", "4", "-C", "/a"] }], 0) ∧
    countExec [Effect.printCommand { program := "make", args := ["-j", "4", "-C", "/a"] }] = 0 :=
  ⟨rfl, rfl⟩

/-- C6 amended: when a build system is found the constructed invocation is
only printed — the effect trace is exactly one `printCommand` and nothing
is executed — and the program exits 0 regardless of any build tool. -/
theorem found_system_dry_run (fs : FS) (cwd : Path) (threadsArg : Option Nat) (host : Nat)
    (bp : BuildProgram) (d : Path)
    (h : find_build_dir fs cwd = .ok (some (bp, d))) :
    ∃ c, main fs cwd threadsArg host = .ok ([Effect.printCommand c], 0) ∧
      countExec [Effect.printCommand c] = 0 := by
  cases bp with
  | Make =>
    exact ⟨build_make_command (threadsArg.getD host) (render d),
      by simp only [main, h, BuildProgram.run], rfl⟩
  | Ninja =>
    exact ⟨build_ninja_command (threadsArg.getD host) (render d),
      by simp only [main, h, BuildProgram.run], rfl⟩
  | CMake =>
    exact ⟨build_cmake_command (threadsArg.getD host) (render d),
      by simp only [main, h, BuildProgram.run], rfl⟩
  | Cargo =>
    exact ⟨{ program := "cargo build", args := [] },
      by simp only [main, h, BuildProgram.run], rfl⟩

/-- Witness for C6 (amended) at a concrete input: with Make found in `/a`
the effect trace is one printed command and the exit status is 0. -/
theorem found_system_dry_run_witness :
    ∃ c, main fsMakeCwd ["a"] (some 4) 8 = .ok ([Effect.printCommand c], 0) ∧
      countExec [Effect.printCommand c] = 0 :=
  found_system_dry_run fsMakeCwd ["a"] (some 4) 8 .Make ["a"] rfl

/-- C7: when the search finds no build system the program prints
`No build system found` and exits with status 0 — a normal terminal
result, not an error. -/
theorem no_build_system_message (fs : FS) (cwd : Path) (threadsArg : Option Nat) (host : Nat)
    (h : find_build_dir fs cwd = .ok none) :
    main fs cwd threadsArg host = .ok ([Effect.print "No build system found"], 0) := by
  simp only [main, h]

/-- Witness for C7 at a concrete input: on the all-empty filesystem the
search from `/a` finds nothing, the message is printed and the status
is 0. -/
theorem no_build_system_message_witness :
    main fsEmpty ["a"] none 4 = .ok ([Effect.print "No build system found"], 0) :=
  no_build_system_message fsEmpty ["a"] none 4 rfl

lemma detectFirstSpec_error_at (fs : FS) (ps : List Path) (p : Path) (qs : List Path)
    (hpre : ∀ q ∈ ps, get_build_system fs q = .ok none)
    (hp : fs.read_dir p = none) :
    detectFirstSpec fs (ps ++ p :: qs) = .error () := by
  induction ps with
  | nil =>
    simp only [List.nil_append, detectFirstSpec, get_build_system, hp]
  | cons hd tl ih =>
    simp only [List.cons_append, detectFirstSpec,
      hpre hd (List.mem_cons_self hd tl)]
    exact ih fun q hq => hpre q (List.mem_cons_of_mem _ hq)

/-- C8: a directory whose listing cannot be read surfaces a filesystem
error: `get_build_system` errors on it rather than returning an empty
result, and when such a directory is reached during the search — every
earlier candidate readable and markerless — `find_build_dir` terminates
with the error instead of skipping the directory. -/
theorem fs_error_surfaced (fs : FS) :
    (∀ p, fs.read_dir p = none → get_build_system fs p = .error ()) ∧
    (∀ cwd ps p qs, searchOrderSpec fs cwd = ps ++ p :: qs →
      (∀ q ∈ ps, get_build_system fs q = .ok none) →
      fs.read_dir p = none →
      find_build_dir fs cwd = .error ()) := by
  constructor
  · intro p hp
    simp [get_build_system, hp]
  · intro cwd ps p qs horder hpre hp
    rw [find_build_dir_eq_detectFirstSpec, horder]
    exact detectFirstSpec_error_at fs ps p qs hpre hp

/-- Filesystem for the C8 witness: `/a` is readable and empty, the root
cannot be listed. -/
def fsRootUnreadable : FS where
  read_dir p := if p = [] then none else some []
  pathExists _ := false

/-- Witness for C8 at a concrete input: from `/a`, whose listing is empty,
the walk reaches the unreadable root and the whole search errors out. -/
theorem fs_error_surfaced_witness :
    get_build_system fsRootUnreadable [] = .error () ∧
    find_build_dir fsRootUnreadable ["a"] = .error () :=
  ⟨(fs_error_surfaced fsRootUnreadable).1 [] rfl,
    (fs_error_surfaced fsRootUnreadable).2 ["a"] [["a"]] [] [] rfl
      (by intro q hq; simp only [List.mem_singleton] at hq; subst hq; rfl) rfl⟩

end SmartMake
